import Mathlib

/-!
Verification of the movies ETL pipeline (extract.py / transform.py).

The two stage scripts are shallowly embedded here:

* JSON values are modelled by the inductive `Json`; a pandas cell is a
  `Cell`, which is either a stored Python object (`Cell.val`) or the
  float-NaN fill that `pd.DataFrame` inserts for a key that is missing
  from one record while present in another (`Cell.nan`).  NaN is truthy
  in Python and formats as "nan"; `Cell.val Json.null` is Python `None`,
  which is falsy.
* Python exceptions are modelled by `Except String`; a raised exception
  that no handler catches makes the whole stage run an `Except.error`.
* The network (requests / boto3) is modelled by oracle parameters: the
  discovery response, the per-movie fetch function, and the result of
  `put_object`.
* Numbers are rationals; floating-point formatting of numbers in log
  text and CSV cells is abstracted by `numRepr` (the claims under
  verification do not depend on it).
-/

namespace MoviesPipeline

/-- JSON values, as produced by `json.load` and held in pandas object
columns.  Objects are association lists; Python dict keys are unique, and
`lookupF` returns the binding of the first occurrence. -/
inductive Json where
  | null
  | bool (b : Bool)
  | num (q : ℚ)
  | str (s : String)
  | arr (elems : List Json)
  | obj (fields : List (String × Json))

/-- Association-list lookup for object fields (Python `dict` access). -/
def lookupF : List (String × Json) → String → Option Json
  | [], _ => none
  | (k, v) :: rest, key => if k = key then some v else lookupF rest key

/-- Python `d.get(key)` on a JSON object; `none` on non-objects and on a
missing key. -/
def Json.lookup : Json → String → Option Json
  | .obj fields, key => lookupF fields key
  | _, _ => none

/-- Python truthiness of a JSON value: `None`, `False`, `0`, `""`, `[]`
and an empty dict are falsy, everything else is truthy. -/
def truthyJ : Json → Bool
  | .null => false
  | .bool b => b
  | .num q => decide (q ≠ 0)
  | .str s => !s.isEmpty
  | .arr xs => !xs.isEmpty
  | .obj fs => !fs.isEmpty

/-- A pandas cell: either a stored Python object or the NaN fill used for
a key absent from this record while present in some other record. -/
inductive Cell where
  | val (j : Json)
  | nan

/-- Python truthiness of a cell.  Float NaN is truthy. -/
def truthyC : Cell → Bool
  | .val j => truthyJ j
  | .nan => true

/-- Numeric reading of a JSON value, as Python arithmetic sees it
(`True` counts as 1, `False` as 0). -/
def jsonQ : Json → Option ℚ
  | .num q => some q
  | .bool b => some (if b then 1 else 0)
  | _ => none

/-- Numeric reading of a cell; NaN and non-numeric objects read as none. -/
def cellQ : Cell → Option ℚ
  | .val j => jsonQ j
  | .nan => none

/-- Decimal rendering of a rational; integral values render like Python
integers, non-integral formatting is abstracted (no claim depends on it). -/
def numRepr (q : ℚ) : String :=
  if q.den = 1 then toString q.num else toString q.num ++ "/" ++ toString q.den

/-- Python `str()` of a JSON value, used by f-string interpolation.
String escaping inside nested containers is not modelled (the data model
only ever interpolates strings). -/
def pyStr : Json → String
  | .null => "None"
  | .bool b => if b then "True" else "False"
  | .num q => numRepr q
  | .str s => s
  | .arr _ => "<list>"
  | .obj _ => "<dict>"

/-- Python `str()` of a cell; `str(float("nan"))` is "nan". -/
def pyStrC : Cell → String
  | .val j => pyStr j
  | .nan => "nan"

/-- Sequential effectful map over a list, propagating the first raised
exception (Python evaluates comprehensions and vectorised column
operations left to right, stopping at the first exception). -/
def seqE : List α → (α → Except String β) → Except String (List β)
  | [], _ => .ok []
  | a :: as, f =>
    match f a with
    | .error e => .error e
    | .ok b =>
      match seqE as f with
      | .error e => .error e
      | .ok bs => .ok (b :: bs)

/-- Sequential effectful filter over a list, propagating the first raised
exception. -/
def filterME : List α → (α → Except String Bool) → Except String (List α)
  | [], _ => .ok []
  | a :: as, p =>
    match p a with
    | .error e => .error e
    | .ok b =>
      match filterME as p with
      | .error e => .error e
      | .ok rest => .ok (if b then a :: rest else rest)

/-! Transformer: transform.py -/

/-- transform.py POSTER_BASE_URL. -/
def POSTER_BASE_URL : String := "https://image.tmdb.org/t/p/w342"

/-- transform.py PROFILE_BASE_URL. -/
def PROFILE_BASE_URL : String := "https://image.tmdb.org/t/p/w185"

/-- transform.py cols_to_keep in clean_and_filter. -/
def colsToKeep : List String :=
  ["id", "title", "budget", "revenue", "release_date", "vote_average",
   "overview", "poster_path", "genres", "cast"]

/-- A projected record after the cols_to_keep restriction: one cell per
required column. -/
structure Row where
  id : Cell
  title : Cell
  budget : Cell
  revenue : Cell
  release_date : Cell
  vote_average : Cell
  overview : Cell
  poster_path : Cell
  genres : Cell
  cast : Cell

/-- A filtered row carrying the derived ROI column. -/
structure CleanRow extends Row where
  ROI : ℚ

/-- The six flattened actor columns produced by extract_top_actors
(`Json.null` models the Python None entries of actor_data). -/
structure ActorFields where
  actor_1_name : Json
  actor_1_image_url : Json
  actor_2_name : Json
  actor_2_image_url : Json
  actor_3_name : Json
  actor_3_image_url : Json

/-- A row after enhance_and_flatten: genres holds the flattened string,
poster_url and the actor columns are added, poster_path and cast are
still present (they are dropped in save_to_s3). -/
structure EnhRow where
  id : Cell
  title : Cell
  budget : Cell
  revenue : Cell
  release_date : Cell
  vote_average : Cell
  overview : Cell
  poster_path : Cell
  genres : Cell
  cast : Cell
  ROI : ℚ
  poster_url : Cell
  actors : ActorFields

/-- A row of the final artifact, after save_to_s3 drops poster_path and
cast and reindexes to the fixed output column order. -/
structure FinalRow where
  id : Cell
  title : Cell
  budget : Cell
  revenue : Cell
  release_date : Cell
  vote_average : Cell
  overview : Cell
  poster_url : Cell
  genres : Cell
  ROI : ℚ
  actors : ActorFields

/-- Whether a column name appears in any source record: pandas builds
the DataFrame columns as the union of the record keys, so the backfill
`df[col] = None` in clean_and_filter runs exactly when no record has the
key. -/
def colPresent (records : List Json) (col : String) : Bool :=
  records.any fun r => (r.lookup col).isSome

/-- The cell of one record under one required column after the project
and backfill step: the stored value when this record has the key, the
NaN fill when another record has the key but this one does not, and the
backfilled None when no record has the key. -/
def projCell (records : List Json) (r : Json) (col : String) : Cell :=
  if colPresent records col then
    match r.lookup col with
    | some v => .val v
    | none => .nan
  else .val .null

/-- One record projected to the cols_to_keep schema. -/
def mkRow (records : List Json) (r : Json) : Row :=
  { id := projCell records r "id"
    title := projCell records r "title"
    budget := projCell records r "budget"
    revenue := projCell records r "revenue"
    release_date := projCell records r "release_date"
    vote_average := projCell records r "vote_average"
    overview := projCell records r "overview"
    poster_path := projCell records r "poster_path"
    genres := projCell records r "genres"
    cast := projCell records r "cast" }

/-- Column access on a projected row by column name (none for a column
outside the cols_to_keep schema). -/
def rowGet (row : Row) (col : String) : Option Cell :=
  if col = "id" then some row.id
  else if col = "title" then some row.title
  else if col = "budget" then some row.budget
  else if col = "revenue" then some row.revenue
  else if col = "release_date" then some row.release_date
  else if col = "vote_average" then some row.vote_average
  else if col = "overview" then some row.overview
  else if col = "poster_path" then some row.poster_path
  else if col = "genres" then some row.genres
  else if col = "cast" then some row.cast
  else none

/-- The pandas elementwise comparison `cell > 0` used by the filter.
Null-like values (None and NaN) compare False without raising; numbers
and booleans compare numerically; any other object raises TypeError. -/
def cmpGtZero : Cell → Except String Bool
  | .nan => .ok false
  | .val .null => .ok false
  | .val (.num q) => .ok (decide (0 < q))
  | .val (.bool b) => .ok b
  | .val _ => .error "TypeError: comparison not supported between instances"

/-- Row selection by the two boolean masks (budget mask and revenue
mask), as in `df[(df[budget] > 0) & (df[revenue] > 0)]`. -/
def keepRows : List Row → List Bool → List Bool → List Row
  | r :: rs, b :: bs, v :: vs =>
    if b && v then r :: keepRows rs bs vs else keepRows rs bs vs
  | _, _, _ => []

/-- The ROI derivation `(revenue - budget) / budget` on one kept row;
after the filter both cells are numeric, so the default never fires. -/
def addROI (r : Row) : CleanRow :=
  { toRow := r
    ROI := ((cellQ r.revenue).getD 0 - (cellQ r.budget).getD 0) /
      (cellQ r.budget).getD 0 }

/-- The filter of clean_and_filter: evaluate the two comparison columns
(budget first, then revenue, each over every row, as the vectorised
pandas expressions do) and keep the rows where both are True. -/
def filterStage (records : List Json) : Except String (List Row) :=
  match seqE (records.map (mkRow records)) (fun r => cmpGtZero r.budget) with
  | .error e => .error e
  | .ok bmask =>
    match seqE (records.map (mkRow records)) (fun r => cmpGtZero r.revenue) with
    | .error e => .error e
    | .ok vmask => .ok (keepRows (records.map (mkRow records)) bmask vmask)

/-- The two log lines clean_and_filter always prints. -/
def cafLogs (records : List Json) (kept : List Row) : List String :=
  ["Cleaning and filtering data...",
   "Filtered " ++ toString (records.length - kept.length) ++ " movies. " ++
     toString kept.length ++ " analyzable movies remaining."]

/-- clean_and_filter: project and backfill, filter, and derive ROI.
Returns the kept rows and the printed log lines; the empty result
returns before the ROI step with the warning line. -/
def clean_and_filter (records : List Json) :
    Except String (List CleanRow × List String) :=
  match filterStage records with
  | .error e => .error e
  | .ok kept =>
    if kept.isEmpty then
      .ok ([], cafLogs records kept ++ ["Warning: No movies left after filtering."])
    else
      .ok (kept.map addROI, cafLogs records kept)

/-! Actor extraction. -/

/-- Whether a cast entry is an object that declares an order key; this is
the membership test of the filtering comprehension on well-formed
entries. -/
def hasOrderKey : Json → Bool
  | .obj fs => (lookupF fs "order").isSome
  | _ => false

/-- Python `"order" in c` for an arbitrary entry: key membership on
dicts, substring test on strings, element membership on lists, TypeError
on non-iterables.  Substring and element membership are modelled
positionally (only the exact string "order" can match). -/
def inCheck : Json → Except String Bool
  | .obj fs => .ok (lookupF fs "order").isSome
  | .str s => .ok ((s.splitOn "order").length != 1)
  | .arr xs => .ok (xs.any fun x =>
      match x with
      | .str s => s == "order"
      | _ => false)
  | _ => .error "TypeError: argument is not iterable"

/-- Python `c[\x22order\x22]` on an entry kept by the filter: the stored
value on dicts, TypeError on any other kept entry. -/
def getOrderKey : Json → Except String Json
  | .obj fs =>
    match lookupF fs "order" with
    | some v => .ok v
    | none => .error "KeyError: order"
  | .str _ => .error "TypeError: string indices must be integers"
  | .arr _ => .error "TypeError: list indices must be integers"
  | _ => .error "TypeError: object is not subscriptable"

/-- The numeric sort key of a cast entry (0 for the cases the sortable
check has already excluded). -/
def ordQ (e : Json) : ℚ :=
  match e.lookup "order" with
  | some (.num q) => q
  | _ => 0

/-- The sort relation of `sorted(..., key=lambda x: x[\x22order\x22])`. -/
def ordLe (a b : Json) : Prop := ordQ a ≤ ordQ b

instance : DecidableRel ordLe :=
  fun a b => inferInstanceAs (Decidable (ordQ a ≤ ordQ b))

instance : IsTotal Json ordLe := ⟨fun a b => le_total (ordQ a) (ordQ b)⟩

instance : IsTrans Json ordLe :=
  ⟨fun _ _ _ hab hbc => le_trans hab hbc⟩

/-- Whether a sort key is a number (mutually comparable in Python). -/
def isNumJ : Json → Bool
  | .num _ => true
  | _ => false

/-- The name column of one of the top three slots: `entry.get(\x22name\x22)`,
None when the slot is beyond the available count. -/
def actorName : Option Json → Json
  | some e => (e.lookup "name").getD .null
  | none => .null

/-- The image column of one of the top three slots: the profile base URL
concatenated with profile_path when that value is truthy, else None. -/
def actorImg : Option Json → Json
  | some e =>
    match e.lookup "profile_path" with
    | some v => if truthyJ v then .str (PROFILE_BASE_URL ++ pyStr v) else .null
    | none => .null
  | none => .null

/-- The six actor columns read off the sorted cast list (positions 1..3
are its first up to three elements). -/
def mkActorFields (s : List Json) : ActorFields :=
  { actor_1_name := actorName s[0]?
    actor_1_image_url := actorImg s[0]?
    actor_2_name := actorName s[1]?
    actor_2_image_url := actorImg s[1]?
    actor_3_name := actorName s[2]?
    actor_3_image_url := actorImg s[2]? }

/-- extract_top_actors: all six columns are None when the cast cell is
not a list; otherwise the entries lacking an order key are discarded and
the rest are stable-sorted ascending by order.  `sorted` computes every
key first (raising where indexing raises), performs no comparison on a
list of length at most one, and raises TypeError when keys of two or
more entries are not mutually comparable; numeric keys are the
data-model case. -/
def extract_top_actors (c : Cell) : Except String ActorFields :=
  match c with
  | .val (.arr xs) =>
    match filterME xs inCheck with
    | .error e => .error e
    | .ok kept =>
      match seqE kept getOrderKey with
      | .error e => .error e
      | .ok keys =>
        if kept.length ≤ 1 then .ok (mkActorFields kept)
        else if keys.all isNumJ then
          .ok (mkActorFields (List.insertionSort ordLe kept))
        else .error "TypeError: comparison not supported between key instances"
  | _ => .ok (mkActorFields [])

/-! Enhance and flatten. -/

/-- The poster_url derivation: base URL concatenated with the cell text
when the poster_path cell is truthy, else None.  The NaN fill is truthy
and formats as "nan". -/
def posterUrl (c : Cell) : Cell :=
  if truthyC c then .val (.str (POSTER_BASE_URL ++ pyStrC c)) else .val .null

/-- The name of one genre object; any other shape raises as Python
indexing or `str.join` would. -/
def genreName : Json → Except String String
  | .obj fs =>
    match lookupF fs "name" with
    | some (.str s) => .ok s
    | some _ => .error "TypeError: sequence item expected str instance"
    | none => .error "KeyError: name"
  | _ => .error "TypeError: object is not subscriptable"

/-- Comma-and-space join. -/
def joinCS : List String → String
  | [] => ""
  | [s] => s
  | s :: rest => s ++ ", " ++ joinCS rest

/-- The genres flattening: the joined names when the cell is a truthy
(non-empty) list, else None. -/
def flattenGenres : Cell → Except String Cell
  | .val (.arr (g :: gs)) =>
    match seqE (g :: gs) genreName with
    | .error e => .error e
    | .ok names => .ok (.val (.str (joinCS names)))
  | _ => .ok (.val .null)

/-- enhance_and_flatten on one row: derive poster_url, overwrite genres
with the flattened string, and produce the six actor columns.  pandas
runs each derivation column-wise; per-row sequencing is equivalent
except for which of several exceptions surfaces first. -/
def enhance_and_flatten (r : CleanRow) : Except String EnhRow :=
  match flattenGenres r.genres with
  | .error e => .error e
  | .ok g =>
    match extract_top_actors r.cast with
    | .error e => .error e
    | .ok actors =>
      .ok { id := r.id, title := r.title, budget := r.budget
            revenue := r.revenue, release_date := r.release_date
            vote_average := r.vote_average, overview := r.overview
            poster_path := r.poster_path, genres := g, cast := r.cast
            ROI := r.ROI, poster_url := posterUrl r.poster_path
            actors := actors }

/-! Save to S3. -/

/-- transform.py final_columns in save_to_s3: the fixed output column
order. -/
def finalColumns : List String :=
  ["id", "title", "budget", "revenue", "release_date", "vote_average",
   "overview", "poster_url", "genres", "ROI",
   "actor_1_name", "actor_1_image_url",
   "actor_2_name", "actor_2_image_url",
   "actor_3_name", "actor_3_image_url"]

/-- Dropping poster_path and cast and reindexing to final_columns. -/
def finalize (r : EnhRow) : FinalRow :=
  { id := r.id, title := r.title, budget := r.budget, revenue := r.revenue
    release_date := r.release_date, vote_average := r.vote_average
    overview := r.overview, poster_url := r.poster_url, genres := r.genres
    ROI := r.ROI, actors := r.actors }

/-- CSV quoting as pandas to_csv performs it. -/
def csvQuote (s : String) : String :=
  if s.any (fun ch => ch = ',' || ch = '"' || ch = '\n') then
    "\"" ++ s.replace "\"" "\"\"" ++ "\""
  else s

/-- CSV rendering of one cell (missing values render empty). -/
def renderCell : Cell → String
  | .nan => ""
  | .val .null => ""
  | .val (.str s) => csvQuote s
  | .val (.num q) => numRepr q
  | .val (.bool b) => if b then "True" else "False"
  | .val v => csvQuote (pyStr v)

/-- CSV rendering of one final row in the fixed column order. -/
def renderRow (r : FinalRow) : List String :=
  [renderCell r.id, renderCell r.title, renderCell r.budget,
   renderCell r.revenue, renderCell r.release_date,
   renderCell r.vote_average, renderCell r.overview,
   renderCell r.poster_url, renderCell r.genres, numRepr r.ROI,
   renderCell (.val r.actors.actor_1_name),
   renderCell (.val r.actors.actor_1_image_url),
   renderCell (.val r.actors.actor_2_name),
   renderCell (.val r.actors.actor_2_image_url),
   renderCell (.val r.actors.actor_3_name),
   renderCell (.val r.actors.actor_3_image_url)]

/-- The in-memory CSV produced by to_csv: header row then one rendered
line per row. -/
def writeCsv (rows : List FinalRow) : List (List String) :=
  finalColumns :: rows.map renderRow

/-- The storage credentials read by transform.py from the process
environment. -/
structure Env where
  accessKeyId : Option String
  secretAccessKey : Option String
  bucket : Option String

/-- Python truthiness of one environment value (unset reads None). -/
def optTruthy : Option String → Bool
  | some s => !s.isEmpty
  | none => false

/-- The credential check `all([AWS_ACCESS_KEY_ID, AWS_SECRET_ACCESS_KEY,
AWS_S3_BUCKET])`. -/
def credsOk (env : Env) : Bool :=
  optTruthy env.accessKeyId && optTruthy env.secretAccessKey &&
    optTruthy env.bucket

/-- Python `str()` of an optional environment value. -/
def optRepr : Option String → String
  | some s => s
  | none => "None"

/-- The observable result of one Transformer run.  noData: the filter
kept nothing and nothing was written.  credsMissing: save_to_s3 logged
the credential error and returned without building or uploading the
artifact.  completed: the artifact was built and put_object was
attempted; uploadOk records whether it succeeded. -/
inductive TransformOutcome where
  | noData (logs : List String)
  | credsMissing (enh : List EnhRow) (logs : List String)
  | completed (rows : List FinalRow) (csv : List (List String))
      (uploadOk : Bool) (logs : List String)

/-- The opening log line of save_to_s3. -/
def saveLogs (env : Env) (logs : List String) : List String :=
  logs ++ ["Saving processed data to S3 Bucket: " ++ optRepr env.bucket ++
    ", Key: processed_movies.csv"]

/-- save_to_s3: log, return early when a credential is missing or empty,
otherwise drop and reindex the columns, render the CSV and attempt the
upload; any exception from put_object is caught and logged, and the
function returns normally in every case (it never raises). -/
def save_to_s3 (env : Env) (enh : List EnhRow) (put : Except String Unit)
    (logs : List String) : TransformOutcome :=
  if credsOk env then
    match put with
    | .ok _ => .completed (enh.map finalize) (writeCsv (enh.map finalize)) true
        (saveLogs env logs ++ ["--- Transformation Complete: File uploaded to S3 ---"])
    | .error e => .completed (enh.map finalize) (writeCsv (enh.map finalize)) false
        (saveLogs env logs ++ ["Error uploading to S3: " ++ e])
  else
    .credsMissing enh
      (saveLogs env logs ++ ["Error: AWS credentials or bucket name not set. Cannot upload to S3."])

/-- run_transformation on an already-parsed staging artifact: clean and
filter, stop with a log when nothing is left, otherwise enhance every
row and hand the result to save_to_s3.  An uncaught Python exception
anywhere is the error case. -/
def run_transformation (records : List Json) (env : Env)
    (put : Except String Unit) : Except String TransformOutcome :=
  match clean_and_filter records with
  | .error e => .error e
  | .ok (rows, logs) =>
    if rows.isEmpty then
      .ok (.noData (logs ++ ["No data to process after cleaning. Exiting."]))
    else
      match seqE rows enhance_and_flatten with
      | .error e => .error e
      | .ok enh =>
        .ok (save_to_s3 env enh put
          (logs ++ ["Enhancing data (URLs, genres, actors)..."]))

/-! Extractor: extract.py -/

/-- validate_api_key succeeds exactly when the environment value is a
non-empty string (`if not API_KEY` raises on both unset and empty). -/
def validateKeyOk : Option String → Bool
  | some s => !s.isEmpty
  | none => false

/-- The observable result of one Extractor run.  noData: nothing was
fetched, the warning was logged and no artifact was written.  wrote:
the parent directories were created and the artifact was serialized as
one JSON array. -/
inductive ExtractOutcome where
  | noData (logs : List String)
  | wrote (artifact : Json) (madeDirs : Bool) (logs : List String)

/-- fetch_movie_ids on the discovery response: a transport error is
caught, logged and degraded to the empty id list; on success the ids are
read off `discover_data.get(\x22results\x22, [])`, raising where Python
iteration or indexing raises. -/
def fetch_movie_ids (resp : Except String Json) : Except String (List Json) :=
  match resp with
  | .error _ => .ok []
  | .ok d =>
    match d with
    | .obj fields =>
      match (lookupF fields "results").getD (.arr []) with
      | .arr movies =>
        seqE movies fun m =>
          match m with
          | .obj f2 =>
            match lookupF f2 "id" with
            | some v => .ok v
            | none => .error "KeyError: id"
          | _ => .error "TypeError: indices must be integers"
      | .str s => if s.isEmpty then .ok [] else
          .error "TypeError: string indices must be integers"
      | _ => .error "TypeError: object is not iterable"
    | _ => .error "AttributeError: object has no attribute get"

/-- The accumulation loop of run_extraction: a failed per-movie fetch is
skipped (it was logged inside fetch_data_for_movie), and a fetched value
is appended only when truthy (`if movie_data:`); the merged object
always carries a cast key, so it is always truthy. -/
def gather (ids : List Json) (fetch : Json → Option Json) : List Json :=
  match ids with
  | [] => []
  | i :: rest =>
    match fetch i with
    | some j => if truthyJ j then j :: gather rest fetch else gather rest fetch
    | none => gather rest fetch

/-- run_extraction: validate the API key before any request, discover
the movie ids, fetch each movie sequentially, and either skip the write
with a warning (empty accumulation) or create the parent directories and
serialize the accumulated list as a single JSON array. -/
def run_extraction (apiKey : Option String) (discoverResp : Except String Json)
    (fetch : Json → Option Json) : Except String ExtractOutcome :=
  if validateKeyOk apiKey then
    match fetch_movie_ids discoverResp with
    | .error e => .error e
    | .ok ids =>
      if (gather ids fetch).isEmpty then
        .ok (.noData ["No detailed movie data was fetched."])
      else
        .ok (.wrote (.arr (gather ids fetch)) true
          ["Successfully fetched full data for " ++
             toString (gather ids fetch).length ++ " movies.",
           "Data successfully saved"])
  else .error "TMDB_API_KEY environment variable not set."

/-! Well-formedness: the RawMovieRecord data model of the spec.  The
claims quantify over source records of that shape; these decidable
predicates carve it out. -/

/-- A budget or revenue value the comparison does not raise on: absent,
null, numeric or boolean. -/
def wfCmpV : Option Json → Bool
  | none => true
  | some .null => true
  | some (.num _) => true
  | some (.bool _) => true
  | some _ => false

/-- A genre list entry: an object with a string name. -/
def wfGenreObj : Json → Bool
  | .obj fs =>
    match lookupF fs "name" with
    | some (.str _) => true
    | _ => false
  | _ => false

/-- A genres value: when it is a list, every entry is a well-formed
genre object (any non-list value flattens to None without raising). -/
def wfGenresV : Option Json → Bool
  | some (.arr xs) => xs.all wfGenreObj
  | _ => true

/-- A cast entry: an object whose order key, when declared, is numeric
(the billing rank of the data model). -/
def wfCastEntry : Json → Bool
  | .obj fs =>
    match lookupF fs "order" with
    | none => true
    | some (.num _) => true
    | some _ => false
  | _ => false

/-- A cast value: when it is a list, every entry is a well-formed cast
entry (any non-list value yields the all-None actor columns). -/
def wfCastV : Option Json → Bool
  | some (.arr xs) => xs.all wfCastEntry
  | _ => true

/-- A cast cell of the projected table, same shape condition. -/
def wfCastCell : Cell → Bool
  | .val (.arr xs) => xs.all wfCastEntry
  | _ => true

/-- A source record conforming to the RawMovieRecord data model in the
fields the pipeline computes on. -/
def wfRecord (r : Json) : Bool :=
  match r with
  | .obj _ =>
    wfCmpV (r.lookup "budget") && wfCmpV (r.lookup "revenue") &&
      wfGenresV (r.lookup "genres") && wfCastV (r.lookup "cast")
  | _ => false

/-- Cell-level shape condition under which the comparison never raises. -/
def wfCmpCell : Cell → Bool
  | .nan => true
  | .val .null => true
  | .val (.num _) => true
  | .val (.bool _) => true
  | _ => false

/-- Cell-level shape condition under which the genres flattening never
raises. -/
def wfGenresCell : Cell → Bool
  | .val (.arr xs) => xs.all wfGenreObj
  | _ => true

/-! Concrete fixtures used by the closed theorems. -/

/-- An environment with every storage credential set. -/
def envSome : Env :=
  { accessKeyId := some "AKIA", secretAccessKey := some "SECRET",
    bucket := some "movies-bucket" }

/-- An environment with every storage credential unset. -/
def envNone : Env := { accessKeyId := none, secretAccessKey := none, bucket := none }

/-- A record with positive budget and revenue and nothing else. -/
def recSimple : Json := .obj [("budget", .num 1000), ("revenue", .num 2500)]

/-- A record carrying a poster_path. -/
def recPoster : Json :=
  .obj [("budget", .num 1000), ("revenue", .num 2500),
    ("poster_path", .str "/abc.jpg")]

/-- A record without the poster_path key (its cell becomes the NaN fill
when recPoster is in the same batch). -/
def recNoPoster : Json := .obj [("budget", .num 3), ("revenue", .num 4)]

/-- The enhanced row the pipeline derives from recSimple alone: every
absent column backfilled to None, ROI = (2500 - 1000) / 1000. -/
def c1Enh : EnhRow :=
  { id := .val .null, title := .val .null, budget := .val (.num 1000)
    revenue := .val (.num 2500), release_date := .val .null
    vote_average := .val .null, overview := .val .null
    poster_path := .val .null, genres := .val .null, cast := .val .null
    ROI := ((2500 : ℚ) - 1000) / 1000, poster_url := .val .null
    actors := mkActorFields [] }

/-- The log of the missing-credentials run on recSimple. -/
def c1Logs : List String :=
  ["Cleaning and filtering data...",
   "Filtered 0 movies. 1 analyzable movies remaining.",
   "Enhancing data (URLs, genres, actors)...",
   "Saving processed data to S3 Bucket: None, Key: processed_movies.csv",
   "Error: AWS credentials or bucket name not set. Cannot upload to S3."]

/-- The log of the successful run on recSimple with envSome. -/
def c7Logs : List String :=
  ["Cleaning and filtering data...",
   "Filtered 0 movies. 1 analyzable movies remaining.",
   "Enhancing data (URLs, genres, actors)...",
   "Saving processed data to S3 Bucket: movies-bucket, Key: processed_movies.csv",
   "--- Transformation Complete: File uploaded to S3 ---"]

/-- The log clean_and_filter prints on the empty staging artifact. -/
def emptyCafLogs : List String :=
  ["Cleaning and filtering data...",
   "Filtered 0 movies. 0 analyzable movies remaining.",
   "Warning: No movies left after filtering."]

/-- The poster_url column of a completed run (none when the run produced
no artifact). -/
def posterColumn (res : Except String TransformOutcome) : Option (List Cell) :=
  match res with
  | .ok (.completed rows _ _ _) => some (rows.map FinalRow.poster_url)
  | _ => none

/-- The cast list of the actor-ordering example in the spec: C has order
2, A order 0, B order 1, and D declares no order. -/
def exampleCastList : List Json :=
  [.obj [("name", .str "C"), ("order", .num 2)],
   .obj [("name", .str "A"), ("order", .num 0)],
   .obj [("name", .str "B"), ("order", .num 1)],
   .obj [("name", .str "D")]]

/-- The cast cell of the example. -/
def exampleCast : Cell := .val (.arr exampleCastList)

/-- The actor columns the example must produce: A, B, C in positions
1..3, no image URLs, D absent. -/
def exampleActors : ActorFields :=
  { actor_1_name := .str "A", actor_1_image_url := .null
    actor_2_name := .str "B", actor_2_image_url := .null
    actor_3_name := .str "C", actor_3_image_url := .null }

/-- A one-movie discovery response. -/
def c9Discover : Except String Json :=
  .ok (.obj [("results", .arr [.obj [("id", .num 603)]])])

/-- A per-movie fetch oracle that always succeeds with a merged object
(merged objects always carry a cast key, hence are truthy). -/
def c9Fetch : Json → Option Json :=
  fun i => some (.obj [("id", i), ("cast", .arr [])])

/-! The properties the claims assert, as reusable predicates. -/

/-- C2 as a predicate of the input records and the artifact rows: every
artifact row comes from a source record whose budget and revenue are
strictly positive numbers, and carries that record's projected budget
and revenue cells. -/
def c2Prop (records : List Json) (rows : List FinalRow) : Prop :=
  ∀ fr ∈ rows, ∃ src ∈ records, ∃ qb qr : ℚ,
    (∃ jb, src.lookup "budget" = some jb ∧ jsonQ jb = some qb) ∧ 0 < qb ∧
    (∃ jr, src.lookup "revenue" = some jr ∧ jsonQ jr = some qr) ∧ 0 < qr ∧
    fr.budget = projCell records src "budget" ∧
    fr.revenue = projCell records src "revenue"

/-- C3 as a predicate of the artifact rows: the ROI column of every row
is exactly (revenue - budget) / budget of that row's own cells, which
are strictly positive numbers (so the quotient is defined; the value may
be negative). -/
def c3Prop (rows : List FinalRow) : Prop :=
  ∀ fr ∈ rows, ∃ qb qr : ℚ,
    cellQ fr.budget = some qb ∧ 0 < qb ∧
    cellQ fr.revenue = some qr ∧ 0 < qr ∧
    fr.ROI = (qr - qb) / qb

/-- C4 as a predicate of the cast cell: a non-list cell yields the six
null columns; a list cell yields the columns read off a list s that is a
permutation of the entries declaring an order, nondecreasing on order,
and stable (for every order value, its entries keep their source
sequence). -/
def c4Prop (c : Cell) : Prop :=
  ((∀ xs, c ≠ .val (.arr xs)) → extract_top_actors c = .ok (mkActorFields [])) ∧
  (∀ xs, c = .val (.arr xs) →
    ∃ s, extract_top_actors c = .ok (mkActorFields s) ∧
      s.Perm (xs.filter hasOrderKey) ∧
      List.Sorted ordLe s ∧
      (∀ v : ℚ, s.filter (fun e => decide (ordQ e = v)) =
        (xs.filter hasOrderKey).filter (fun e => decide (ordQ e = v))))

/-- C5 as a predicate of the input records: after project-and-backfill
every required column exists on every row; a column absent from every
record is backfilled to None; the whole run is total; a record missing
the genres key projects to a null-like genres cell; and enhancing a row
with a null-like genres cell succeeds with a null genres column. -/
def c5Prop (records : List Json) : Prop :=
  (∀ r ∈ records, ∀ col ∈ colsToKeep,
    (rowGet (mkRow records r) col).isSome = true) ∧
  (∀ col ∈ colsToKeep, colPresent records col = false →
    ∀ r ∈ records, rowGet (mkRow records r) col = some (.val .null)) ∧
  (∀ (env : Env) (put : Except String Unit),
    ∃ out, run_transformation records env put = .ok out) ∧
  (∀ r ∈ records, r.lookup "genres" = none →
    projCell records r "genres" = .nan ∨
      projCell records r "genres" = .val .null) ∧
  (∀ rows logs, clean_and_filter records = .ok (rows, logs) →
    ∀ row ∈ rows, (row.genres = .nan ∨ row.genres = .val .null) →
      ∃ er, enhance_and_flatten row = .ok er ∧ er.genres = .val .null)

/-- C7 as a predicate of the artifact: the CSV opens with the fixed
header and every line has exactly the sixteen columns. -/
def c7Prop (rows : List FinalRow) (csv : List (List String)) : Prop :=
  csv.head? = some finalColumns ∧ csv.length = rows.length + 1 ∧
    ∀ line ∈ csv, line.length = 16

/-- C9 as a predicate of the Extractor run: the accumulated sequence is
the per-id fetches in discovery order with failures skipped; when it is
empty the write is skipped with the warning, else the artifact is that
sequence as one JSON array, with the parent directories created. -/
def c9Prop (k : Option String) (d : Except String Json)
    (f : Json → Option Json) (ids : List Json) : Prop :=
  gather ids f = ids.filterMap f ∧
  (ids.filterMap f = [] →
    run_extraction k d f = .ok (.noData ["No detailed movie data was fetched."])) ∧
  (ids.filterMap f ≠ [] →
    run_extraction k d f = .ok (.wrote (.arr (ids.filterMap f)) true
      ["Successfully fetched full data for " ++
         toString (ids.filterMap f).length ++ " movies.",
       "Data successfully saved"]))

/-- C10 as a predicate: a failing upload is caught, logged and returned
from normally, producing the same artifact as the successful upload, and
whether any run terminates normally never depends on the upload result. -/
def c10Prop (env : Env) (enh : List EnhRow) (logs : List String)
    (e : String) : Prop :=
  save_to_s3 env enh (.error e) logs =
    .completed (enh.map finalize) (writeCsv (enh.map finalize)) false
      (saveLogs env logs ++ ["Error uploading to S3: " ++ e]) ∧
  ("Error uploading to S3: " ++ e) ∈
    saveLogs env logs ++ ["Error uploading to S3: " ++ e] ∧
  save_to_s3 env enh (.ok ()) logs =
    .completed (enh.map finalize) (writeCsv (enh.map finalize)) true
      (saveLogs env logs ++ ["--- Transformation Complete: File uploaded to S3 ---"]) ∧
  ∀ (env2 : Env) (records : List Json) (put put2 : Except String Unit),
    (run_transformation records env2 put).isOk =
      (run_transformation records env2 put2).isOk

/-! Lemmas about the effect combinators. -/

theorem seqE_eq_ok {f : α → Except String β} :
    ∀ {l : List α} {bs : List β},
      seqE l f = .ok bs ↔ List.Forall₂ (fun a b => f a = .ok b) l bs := by
  intro l
  induction l with
  | nil =>
    intro bs
    constructor
    · intro h
      cases h
      exact List.Forall₂.nil
    · intro h
      cases h
      rfl
  | cons a as ih =>
    intro bs
    constructor
    · intro h
      unfold seqE at h
      cases hfa : f a with
      | error e => rw [hfa] at h; cases h
      | ok b =>
        rw [hfa] at h
        cases hrest : seqE as f with
        | error e => rw [hrest] at h; cases h
        | ok bs0 =>
          rw [hrest] at h
          cases h
          exact List.Forall₂.cons hfa (ih.mp hrest)
    · intro h
      cases h with
      | cons hab hrest =>
        unfold seqE
        rw [hab, ih.mpr hrest]

theorem seqE_total {f : α → Except String β} :
    ∀ {l : List α}, (∀ a ∈ l, ∃ b, f a = .ok b) →
      ∃ bs, seqE l f = .ok bs := by
  intro l
  induction l with
  | nil => intro _; exact ⟨[], rfl⟩
  | cons a as ih =>
    intro h
    obtain ⟨b, hb⟩ := h a (List.mem_cons_self a as)
    obtain ⟨bs, hbs⟩ := ih (fun x hx => h x (List.mem_cons_of_mem a hx))
    exact ⟨b :: bs, by unfold seqE; rw [hb, hbs]⟩

theorem filterME_total {p : α → Except String Bool} :
    ∀ {l : List α}, (∀ a ∈ l, ∃ b, p a = .ok b) →
      ∃ l', filterME l p = .ok l' := by
  intro l
  induction l with
  | nil => intro _; exact ⟨[], rfl⟩
  | cons a as ih =>
    intro h
    obtain ⟨b, hb⟩ := h a (List.mem_cons_self a as)
    obtain ⟨l', hl'⟩ := ih (fun x hx => h x (List.mem_cons_of_mem a hx))
    exact ⟨if b then a :: l' else l', by unfold filterME; rw [hb, hl']⟩

/-- When the predicate computes a boolean function without raising,
`filterME` is the pure filter. -/
theorem filterME_eq_filter {p : α → Except String Bool} {q : α → Bool} :
    ∀ {l : List α}, (∀ a ∈ l, p a = .ok (q a)) →
      filterME l p = .ok (l.filter q) := by
  intro l
  induction l with
  | nil => intro _; rfl
  | cons a as ih =>
    intro h
    unfold filterME
    rw [h a (List.mem_cons_self a as),
        ih (fun x hx => h x (List.mem_cons_of_mem a hx))]
    by_cases hq : q a
    · simp [List.filter_cons, hq]
    · simp [List.filter_cons, hq]

/-! Lemmas about the filter. -/

theorem cmp_ok_true {c : Cell} (h : cmpGtZero c = .ok true) :
    ∃ q, cellQ c = some q ∧ 0 < q := by
  cases c with
  | nan => cases h
  | val j =>
    cases j with
    | null => cases h
    | bool b =>
      cases b with
      | false => cases h
      | true => exact ⟨1, rfl, one_pos⟩
    | num q =>
      refine ⟨q, rfl, ?_⟩
      have := congrArg (fun x => match x with | .ok b => b | .error _ => false) h
      simpa using of_decide_eq_true this
    | str s => cases h
    | arr xs => cases h
    | obj fs => cases h

theorem cmp_proj_true {records : List Json} {r : Json} {col : String}
    (h : cmpGtZero (projCell records r col) = .ok true) :
    ∃ v, r.lookup col = some v ∧ cmpGtZero (.val v) = .ok true := by
  unfold projCell at h
  by_cases hp : colPresent records col
  · rw [if_pos hp] at h
    cases hl : r.lookup col with
    | none => rw [hl] at h; cases h
    | some v => rw [hl] at h; exact ⟨v, rfl, h⟩
  · rw [if_neg hp] at h; cases h

theorem cmp_val_true {v : Json} (h : cmpGtZero (.val v) = .ok true) :
    ∃ q, jsonQ v = some q ∧ 0 < q := by
  obtain ⟨q, hq, hpos⟩ := cmp_ok_true h
  exact ⟨q, hq, hpos⟩

theorem mem_keepRows {P Q : Row → Bool → Prop} :
    ∀ {rs : List Row} {bs vs : List Bool} {x : Row},
      List.Forall₂ P rs bs → List.Forall₂ Q rs vs →
      x ∈ keepRows rs bs vs → x ∈ rs ∧ P x true ∧ Q x true := by
  intro rs
  induction rs with
  | nil =>
    intro bs vs x hb _ hx
    cases hb
    simp [keepRows] at hx
  | cons r rest ih =>
    intro bs vs x hb hv hx
    cases hb with
    | cons hpb hb2 =>
      cases hv with
      | cons hqv hv2 =>
        rename_i b bs2 v vs2
        cases hcond : (b && v) with
        | true =>
          rw [keepRows, if_pos hcond] at hx
          rcases List.mem_cons.mp hx with hx1 | hx2
          · subst hx1
            obtain ⟨hb1, hv1⟩ : b = true ∧ v = true := by simpa using hcond
            subst hb1; subst hv1
            exact ⟨List.mem_cons_self _ _, hpb, hqv⟩
          · obtain ⟨h1, h2, h3⟩ := ih hb2 hv2 hx2
            exact ⟨List.mem_cons_of_mem _ h1, h2, h3⟩
        | false =>
          rw [keepRows, if_neg (by simp [hcond])] at hx
          obtain ⟨h1, h2, h3⟩ := ih hb2 hv2 hx
          exact ⟨List.mem_cons_of_mem _ h1, h2, h3⟩

/-- Every row kept by the filter is a projected source row whose two
comparison cells evaluated to True. -/
theorem filterStage_mem {records : List Json} {kept : List Row}
    (h : filterStage records = .ok kept) :
    ∀ x ∈ kept, x ∈ records.map (mkRow records) ∧
      cmpGtZero x.budget = .ok true ∧ cmpGtZero x.revenue = .ok true := by
  unfold filterStage at h
  cases h1 : seqE (records.map (mkRow records)) (fun r => cmpGtZero r.budget) with
  | error e => rw [h1] at h; cases h
  | ok bmask =>
    rw [h1] at h
    cases h2 : seqE (records.map (mkRow records)) (fun r => cmpGtZero r.revenue) with
    | error e => rw [h2] at h; cases h
    | ok vmask =>
      rw [h2] at h
      cases h
      intro x hx
      exact mem_keepRows (seqE_eq_ok.mp h1) (seqE_eq_ok.mp h2) hx

/-- Every kept row of clean_and_filter is the ROI-extended projection of
a source record, and both of its comparison cells evaluated to True. -/
theorem caf_mem {records : List Json} {rows : List CleanRow}
    {logs : List String}
    (h : clean_and_filter records = .ok (rows, logs)) :
    ∀ row ∈ rows, ∃ src ∈ records, row = addROI (mkRow records src) ∧
      cmpGtZero (mkRow records src).budget = .ok true ∧
      cmpGtZero (mkRow records src).revenue = .ok true := by
  unfold clean_and_filter at h
  cases h1 : filterStage records with
  | error e => rw [h1] at h; cases h
  | ok kept =>
    rw [h1] at h
    by_cases hemp : kept.isEmpty
    · simp only [hemp, if_true] at h
      cases h
      intro row hrow
      cases hrow
    · simp only [hemp, if_false, Bool.false_eq_true] at h
      cases h
      intro row hrow
      obtain ⟨r0, hr0, hrow⟩ := List.mem_map.mp hrow
      obtain ⟨hmem, hcb, hcv⟩ := filterStage_mem h1 r0 hr0
      obtain ⟨src, hsrc, hr0eq⟩ := List.mem_map.mp hmem
      subst hr0eq
      exact ⟨src, hsrc, hrow.symm, hcb, hcv⟩

/-- When clean_and_filter keeps nothing it has logged the warning line. -/
theorem caf_empty_warning {records : List Json} {logs : List String}
    (h : clean_and_filter records = .ok ([], logs)) :
    "Warning: No movies left after filtering." ∈ logs := by
  unfold clean_and_filter at h
  cases h1 : filterStage records with
  | error e => rw [h1] at h; cases h
  | ok kept =>
    rw [h1] at h
    by_cases hemp : kept.isEmpty
    · simp only [hemp, if_true] at h
      cases h
      simp
    · simp only [hemp, if_false, Bool.false_eq_true] at h
      injection h with h3
      have h4 : kept.map addROI = [] := congrArg Prod.fst h3
      have h5 : kept = [] := by simpa using h4
      exact absurd (by simp [h5]) hemp

/-! Lemmas about enhance_and_flatten and run_transformation. -/

/-- enhance_and_flatten copies the numeric cells and ROI unchanged, sets
poster_url from poster_path, and stores the flattened genres. -/
theorem enhance_fields {r : CleanRow} {er : EnhRow}
    (h : enhance_and_flatten r = .ok er) :
    er.budget = r.budget ∧ er.revenue = r.revenue ∧ er.ROI = r.ROI ∧
      er.poster_url = posterUrl r.poster_path ∧
      flattenGenres r.genres = .ok er.genres := by
  unfold enhance_and_flatten at h
  cases h1 : flattenGenres r.genres with
  | error e => rw [h1] at h; cases h
  | ok g =>
    rw [h1] at h
    cases h2 : extract_top_actors r.cast with
    | error e => rw [h2] at h; cases h
    | ok actors =>
      rw [h2] at h
      cases h
      exact ⟨rfl, rfl, rfl, rfl, rfl⟩

/-- Inversion of a completed Transformer run: the pipeline went through
clean_and_filter, a per-row enhancement, the column drop and reindex,
and the CSV rendering, and the credential check passed. -/
theorem run_completed {records : List Json} {env : Env}
    {put : Except String Unit} {rows : List FinalRow}
    {csv : List (List String)} {u : Bool} {logs : List String}
    (h : run_transformation records env put = .ok (.completed rows csv u logs)) :
    ∃ kept logs0 enh, clean_and_filter records = .ok (kept, logs0) ∧
      seqE kept enhance_and_flatten = .ok enh ∧
      rows = enh.map finalize ∧ csv = writeCsv rows ∧ credsOk env = true := by
  unfold run_transformation at h
  cases h1 : clean_and_filter records with
  | error e => rw [h1] at h; cases h
  | ok pair =>
    obtain ⟨kept, logs0⟩ := pair
    rw [h1] at h
    by_cases hemp : kept.isEmpty
    · simp only [hemp, if_true] at h
      cases h
    · simp only [hemp, if_false, Bool.false_eq_true] at h
      cases h2 : seqE kept enhance_and_flatten with
      | error e => rw [h2] at h; cases h
      | ok enh =>
        rw [h2] at h
        dsimp only at h
        unfold save_to_s3 at h
        by_cases hcred : credsOk env
        · rw [if_pos hcred] at h
          cases put with
          | ok _ =>
            cases h
            exact ⟨kept, logs0, enh, rfl, h2, rfl, rfl, hcred⟩
          | error e =>
            cases h
            exact ⟨kept, logs0, enh, rfl, h2, rfl, rfl, hcred⟩
        · rw [if_neg hcred] at h
          cases h

/-- A run whose filter keeps nothing stops before enhancement and before
save_to_s3: the outcome is noData with the exit log line, independent of
the upload oracle and the credentials. -/
theorem run_empty {records : List Json} {env : Env}
    {put : Except String Unit} {logs : List String}
    (h : clean_and_filter records = .ok ([], logs)) :
    run_transformation records env put =
      .ok (.noData (logs ++ ["No data to process after cleaning. Exiting."])) := by
  unfold run_transformation
  rw [h]
  rfl

/-- Whether a stage run terminated normally is unaffected by the upload
oracle: put_object is only reached inside the try block of save_to_s3. -/
theorem run_isOk_put (records : List Json) (env : Env)
    (put put2 : Except String Unit) :
    (run_transformation records env put).isOk =
      (run_transformation records env put2).isOk := by
  unfold run_transformation
  cases h1 : clean_and_filter records with
  | error e => rfl
  | ok pair =>
    obtain ⟨kept, logs0⟩ := pair
    by_cases hemp : kept.isEmpty
    · simp only [hemp, if_true]
    · simp only [hemp, if_false, Bool.false_eq_true]
      cases h2 : seqE kept enhance_and_flatten with
      | error e => rfl
      | ok enh => rfl

/-! Stability of the insertion sort used to model Python sorted. -/

theorem filter_orderedInsert (v : ℚ) (x : Json) :
    ∀ l : List Json,
      (List.orderedInsert ordLe x l).filter (fun e => decide (ordQ e = v)) =
        if ordQ x = v then x :: l.filter (fun e => decide (ordQ e = v))
        else l.filter (fun e => decide (ordQ e = v)) := by
  intro l
  induction l with
  | nil =>
    by_cases hx : ordQ x = v <;> simp [List.orderedInsert, List.filter, hx]
  | cons y ys ih =>
    by_cases hr : ordLe x y
    · by_cases hx : ordQ x = v <;> by_cases hy : ordQ y = v <;>
        simp [List.orderedInsert, hr, List.filter_cons, hx, hy]
    · have hr2 : ¬ (ordQ x ≤ ordQ y) := hr
      by_cases hx : ordQ x = v
      · have hy : ¬ (ordQ y = v) := by
          intro hy
          exact hr2 (le_of_eq (hx.trans hy.symm))
        simp [List.orderedInsert, hr, List.filter_cons, hy, ih, hx]
      · by_cases hy : ordQ y = v <;>
          simp [List.orderedInsert, hr, List.filter_cons, hy, ih, hx]

theorem filter_insertionSort (v : ℚ) :
    ∀ l : List Json,
      (List.insertionSort ordLe l).filter (fun e => decide (ordQ e = v)) =
        l.filter (fun e => decide (ordQ e = v)) := by
  intro l
  induction l with
  | nil => rfl
  | cons a l ih =>
    have hstep : List.insertionSort ordLe (a :: l) =
        List.orderedInsert ordLe a (List.insertionSort ordLe l) := rfl
    rw [hstep, filter_orderedInsert]
    by_cases ha : ordQ a = v <;> simp [List.filter_cons, ha, ih]

theorem sorted_of_short {l : List Json} (h : l.length ≤ 1) :
    List.Sorted ordLe l := by
  cases l with
  | nil => exact List.sorted_nil
  | cons a rest =>
    cases rest with
    | nil => exact List.sorted_singleton a
    | cons b rest2 => simp at h

theorem forall2_mem_right {R : α → β → Prop} :
    ∀ {l1 : List α} {l2 : List β}, List.Forall₂ R l1 l2 →
      ∀ b ∈ l2, ∃ a ∈ l1, R a b := by
  intro l1
  induction l1 with
  | nil =>
    intro l2 h b hb
    cases h
    cases hb
  | cons a as ih =>
    intro l2 h b hb
    cases h with
    | cons hR hrest =>
      rcases List.mem_cons.mp hb with hb1 | hb2
      · subst hb1
        exact ⟨a, List.mem_cons_self _ _, hR⟩
      · obtain ⟨a2, ha2, hr2⟩ := ih hrest b hb2
        exact ⟨a2, List.mem_cons_of_mem _ ha2, hr2⟩

/-! Lemmas about actor extraction. -/

theorem inCheck_of_wf {e : Json} (h : wfCastEntry e = true) :
    inCheck e = .ok (hasOrderKey e) := by
  cases e with
  | obj fs => rfl
  | null => simp [wfCastEntry] at h
  | bool b => simp [wfCastEntry] at h
  | num q => simp [wfCastEntry] at h
  | str s => simp [wfCastEntry] at h
  | arr xs => simp [wfCastEntry] at h

theorem getOrderKey_of_kept {e : Json} (hwf : wfCastEntry e = true)
    (hkey : hasOrderKey e = true) :
    ∃ q : ℚ, getOrderKey e = .ok (.num q) ∧ ordQ e = q := by
  cases e with
  | obj fs =>
    simp only [hasOrderKey] at hkey
    simp only [wfCastEntry] at hwf
    cases hl : lookupF fs "order" with
    | none => rw [hl] at hkey; cases hkey
    | some w =>
      rw [hl] at hwf
      cases w with
      | num q =>
        refine ⟨q, ?_, ?_⟩
        · simp [getOrderKey, hl]
        · simp [ordQ, Json.lookup, hl]
      | null => cases hwf
      | bool b => cases hwf
      | str s => cases hwf
      | arr xs => cases hwf
      | obj fs2 => cases hwf
  | null => simp [wfCastEntry] at hwf
  | bool b => simp [wfCastEntry] at hwf
  | num q => simp [wfCastEntry] at hwf
  | str s => simp [wfCastEntry] at hwf
  | arr xs => simp [wfCastEntry] at hwf

/-- Characterization of extract_top_actors on a data-model cast list:
it succeeds, and the list it reads the three slots from is exactly the
entries that declare an order key, in a permutation that is nondecreasing
on order and stable (entries of equal order keep their source order). -/
theorem actors_spec {xs : List Json} (hwf : xs.all wfCastEntry = true) :
    ∃ s, extract_top_actors (.val (.arr xs)) = .ok (mkActorFields s) ∧
      s.Perm (xs.filter hasOrderKey) ∧ List.Sorted ordLe s ∧
      ∀ v : ℚ, s.filter (fun e => decide (ordQ e = v)) =
        (xs.filter hasOrderKey).filter (fun e => decide (ordQ e = v)) := by
  have hwf2 : ∀ e ∈ xs, wfCastEntry e = true := by
    intro e he
    exact List.all_eq_true.mp hwf e he
  have hfil : filterME xs inCheck = .ok (xs.filter hasOrderKey) :=
    filterME_eq_filter (fun e he => inCheck_of_wf (hwf2 e he))
  have hkeptwf : ∀ e ∈ xs.filter hasOrderKey, wfCastEntry e = true :=
    fun e he => hwf2 e (List.mem_of_mem_filter he)
  have hkeptkey : ∀ e ∈ xs.filter hasOrderKey, hasOrderKey e = true :=
    fun e he => List.of_mem_filter he
  obtain ⟨keys, hkeys⟩ :=
    seqE_total (f := getOrderKey) (l := xs.filter hasOrderKey)
      (fun e he => by
        obtain ⟨q, h1, _⟩ := getOrderKey_of_kept (hkeptwf e he) (hkeptkey e he)
        exact ⟨.num q, h1⟩)
  have hallnum : keys.all isNumJ = true := by
    rw [List.all_eq_true]
    intro k hk
    obtain ⟨e, he, hek⟩ := forall2_mem_right (seqE_eq_ok.mp hkeys) k hk
    obtain ⟨q, h1, _⟩ := getOrderKey_of_kept (hkeptwf e he) (hkeptkey e he)
    rw [h1] at hek
    cases hek
    rfl
  unfold extract_top_actors
  dsimp only
  rw [hfil]
  dsimp only
  rw [hkeys]
  dsimp only
  by_cases hlen : (xs.filter hasOrderKey).length ≤ 1
  · rw [if_pos hlen]
    exact ⟨xs.filter hasOrderKey, rfl, List.Perm.refl _, sorted_of_short hlen,
      fun v => rfl⟩
  · rw [if_neg hlen, if_pos hallnum]
    exact ⟨List.insertionSort ordLe (xs.filter hasOrderKey), rfl,
      List.perm_insertionSort ordLe _,
      List.sorted_insertionSort ordLe _,
      fun v => filter_insertionSort v _⟩

theorem actors_nonlist {c : Cell} (h : ∀ xs, c ≠ .val (.arr xs)) :
    extract_top_actors c = .ok (mkActorFields []) := by
  cases c with
  | nan => rfl
  | val j =>
    cases j with
    | arr xs => exact absurd rfl (h xs)
    | null => rfl
    | bool b => rfl
    | num q => rfl
    | str s => rfl
    | obj fs => rfl

theorem actors_total {c : Cell} (hwf : wfCastCell c = true) :
    ∃ a, extract_top_actors c = .ok a := by
  cases c with
  | nan => exact ⟨_, rfl⟩
  | val j =>
    cases j with
    | arr xs =>
      obtain ⟨s, hs, _⟩ := @actors_spec xs hwf
      exact ⟨_, hs⟩
    | null => exact ⟨_, rfl⟩
    | bool b => exact ⟨_, rfl⟩
    | num q => exact ⟨_, rfl⟩
    | str s => exact ⟨_, rfl⟩
    | obj fs => exact ⟨_, rfl⟩

/-! Totality of the pipeline on data-model records. -/


theorem wfRecord_parts {r : Json} (h : wfRecord r = true) :
    wfCmpV (r.lookup "budget") = true ∧ wfCmpV (r.lookup "revenue") = true ∧
      wfGenresV (r.lookup "genres") = true ∧ wfCastV (r.lookup "cast") = true := by
  cases r with
  | obj fs =>
    simp only [wfRecord, Bool.and_eq_true] at h
    exact ⟨h.1.1.1, h.1.1.2, h.1.2, h.2⟩
  | null => simp [wfRecord] at h
  | bool b => simp [wfRecord] at h
  | num q => simp [wfRecord] at h
  | str s => simp [wfRecord] at h
  | arr xs => simp [wfRecord] at h

theorem projCell_wfCmp {records : List Json} {r : Json} {col : String}
    (h : wfCmpV (r.lookup col) = true) :
    wfCmpCell (projCell records r col) = true := by
  unfold projCell
  by_cases hp : colPresent records col
  · rw [if_pos hp]
    cases hl : r.lookup col with
    | none => rfl
    | some v =>
      rw [hl] at h
      cases v with
      | null => rfl
      | num q => rfl
      | bool b => rfl
      | str s => simp [wfCmpV] at h
      | arr xs => simp [wfCmpV] at h
      | obj fs => simp [wfCmpV] at h
  · rw [if_neg hp]; rfl

theorem projCell_wfGenres {records : List Json} {r : Json} {col : String}
    (h : wfGenresV (r.lookup col) = true) :
    wfGenresCell (projCell records r col) = true := by
  unfold projCell
  by_cases hp : colPresent records col
  · rw [if_pos hp]
    cases hl : r.lookup col with
    | none => rfl
    | some v =>
      rw [hl] at h
      cases v with
      | arr xs => exact h
      | null => rfl
      | num q => rfl
      | bool b => rfl
      | str s => rfl
      | obj fs => rfl
  · rw [if_neg hp]; rfl

theorem projCell_wfCast {records : List Json} {r : Json} {col : String}
    (h : wfCastV (r.lookup col) = true) :
    wfCastCell (projCell records r col) = true := by
  unfold projCell
  by_cases hp : colPresent records col
  · rw [if_pos hp]
    cases hl : r.lookup col with
    | none => rfl
    | some v =>
      rw [hl] at h
      cases v with
      | arr xs => exact h
      | null => rfl
      | num q => rfl
      | bool b => rfl
      | str s => rfl
      | obj fs => rfl
  · rw [if_neg hp]; rfl

theorem cmp_ok_of_wf {c : Cell} (h : wfCmpCell c = true) :
    ∃ b, cmpGtZero c = .ok b := by
  cases c with
  | nan => exact ⟨false, rfl⟩
  | val j =>
    cases j with
    | null => exact ⟨false, rfl⟩
    | num q => exact ⟨_, rfl⟩
    | bool b => exact ⟨b, rfl⟩
    | str s => simp [wfCmpCell] at h
    | arr xs => simp [wfCmpCell] at h
    | obj fs => simp [wfCmpCell] at h

theorem genreName_ok {g : Json} (h : wfGenreObj g = true) :
    ∃ s, genreName g = .ok s := by
  cases g with
  | obj fs =>
    simp only [wfGenreObj] at h
    cases hl : lookupF fs "name" with
    | none => rw [hl] at h; cases h
    | some v =>
      rw [hl] at h
      cases v with
      | str s => exact ⟨s, by simp [genreName, hl]⟩
      | null => cases h
      | bool b => cases h
      | num q => cases h
      | arr xs => cases h
      | obj fs2 => cases h
  | null => simp [wfGenreObj] at h
  | bool b => simp [wfGenreObj] at h
  | num q => simp [wfGenreObj] at h
  | str s => simp [wfGenreObj] at h
  | arr xs => simp [wfGenreObj] at h

theorem flattenGenres_ok {c : Cell} (h : wfGenresCell c = true) :
    ∃ g, flattenGenres c = .ok g := by
  cases c with
  | nan => exact ⟨_, rfl⟩
  | val j =>
    cases j with
    | arr xs =>
      cases xs with
      | nil => exact ⟨_, rfl⟩
      | cons g gs =>
        have hall : ∀ e ∈ (g :: gs), wfGenreObj e = true := by
          intro e he
          exact List.all_eq_true.mp h e he
        obtain ⟨names, hn⟩ :=
          seqE_total (f := genreName) (fun e he => genreName_ok (hall e he))
        exact ⟨_, by unfold flattenGenres; dsimp only; rw [hn]⟩
    | null => exact ⟨_, rfl⟩
    | bool b => exact ⟨_, rfl⟩
    | num q => exact ⟨_, rfl⟩
    | str s => exact ⟨_, rfl⟩
    | obj fs => exact ⟨_, rfl⟩

/-- NaN and None genre cells both flatten to None. -/
theorem flattenGenres_null {c : Cell} (h : c = .nan ∨ c = .val .null) :
    flattenGenres c = .ok (.val .null) := by
  rcases h with h | h <;> subst h <;> rfl

/-- clean_and_filter never raises on data-model records. -/
theorem caf_ok {records : List Json}
    (hwf : ∀ r ∈ records, wfRecord r = true) :
    ∃ rows logs, clean_and_filter records = .ok (rows, logs) := by
  obtain ⟨bmask, hb⟩ :=
    seqE_total (f := fun r : Row => cmpGtZero r.budget)
      (l := records.map (mkRow records)) (by
        intro row hrow
        obtain ⟨src, hsrc, hmk⟩ := List.mem_map.mp hrow
        subst hmk
        exact cmp_ok_of_wf (projCell_wfCmp (wfRecord_parts (hwf src hsrc)).1))
  obtain ⟨vmask, hv⟩ :=
    seqE_total (f := fun r : Row => cmpGtZero r.revenue)
      (l := records.map (mkRow records)) (by
        intro row hrow
        obtain ⟨src, hsrc, hmk⟩ := List.mem_map.mp hrow
        subst hmk
        exact cmp_ok_of_wf (projCell_wfCmp (wfRecord_parts (hwf src hsrc)).2.1))
  have hfs : filterStage records =
      .ok (keepRows (records.map (mkRow records)) bmask vmask) := by
    unfold filterStage
    rw [hb, hv]
  unfold clean_and_filter
  rw [hfs]
  dsimp only
  by_cases hemp : (keepRows (records.map (mkRow records)) bmask vmask).isEmpty
  · rw [if_pos hemp]
    exact ⟨_, _, rfl⟩
  · rw [if_neg hemp]
    exact ⟨_, _, rfl⟩

/-- enhance_and_flatten never raises on a row whose genres and cast cells
have the data-model shape. -/
theorem enhance_ok {row : CleanRow}
    (hg : wfGenresCell row.genres = true) (hc : wfCastCell row.cast = true) :
    ∃ er, enhance_and_flatten row = .ok er := by
  obtain ⟨g, hg2⟩ := flattenGenres_ok hg
  obtain ⟨a, ha⟩ := actors_total hc
  exact ⟨_, by unfold enhance_and_flatten; rw [hg2, ha]⟩

/-- run_transformation never raises on data-model records: the whole
Transformer pipeline is total there, whatever the credentials and the
upload result. -/
theorem run_ok {records : List Json}
    (hwf : ∀ r ∈ records, wfRecord r = true) (env : Env)
    (put : Except String Unit) :
    ∃ out, run_transformation records env put = .ok out := by
  obtain ⟨rows, logs, hcaf⟩ := caf_ok hwf
  unfold run_transformation
  rw [hcaf]
  dsimp only
  by_cases hemp : rows.isEmpty
  · rw [if_pos hemp]
    exact ⟨_, rfl⟩
  · rw [if_neg hemp]
    obtain ⟨enh, henh⟩ :=
      seqE_total (f := enhance_and_flatten) (l := rows) (by
        intro row hrow
        obtain ⟨src, hsrc, heq, _, _⟩ := caf_mem hcaf row hrow
        subst heq
        have hparts := wfRecord_parts (hwf src hsrc)
        exact enhance_ok (projCell_wfGenres hparts.2.2.1)
          (projCell_wfCast hparts.2.2.2))
    rw [henh]
    exact ⟨_, rfl⟩

/-! Remaining helper lemmas. -/

/-- Every required column of a projected row reads back its projected
cell. -/
theorem rowGet_col (records : List Json) (r : Json) :
    ∀ col ∈ colsToKeep,
      rowGet (mkRow records r) col = some (projCell records r col) := by
  intro col hcol
  simp only [colsToKeep, List.mem_cons, List.not_mem_nil, or_false] at hcol
  rcases hcol with rfl | rfl | rfl | rfl | rfl | rfl | rfl | rfl | rfl | rfl <;> rfl

/-- When every fetched object is truthy, the accumulation loop is the
filterMap of the fetch over the ids, in order. -/
theorem gather_eq_filterMap {f : Json → Option Json}
    (hf : ∀ i j, f i = some j → truthyJ j = true) :
    ∀ ids, gather ids f = ids.filterMap f := by
  intro ids
  induction ids with
  | nil => rfl
  | cons i rest ih =>
    unfold gather
    cases hfi : f i with
    | none => rw [List.filterMap_cons, hfi]; exact ih
    | some j =>
      rw [List.filterMap_cons, hfi]
      dsimp only
      rw [hf i j hfi, ih]
      simp

/-! The claims. -/

/-- C1 (amended): a missing or empty API key makes the Extractor run
fatal before any request is issued — the outcome is the ValueError and
is the same whatever the two network oracles return.  Missing storage
credentials, however, do NOT make the Transformer run fatal: the run
still reads and transforms the staging artifact, and when it terminates
normally the outcome is either the empty-filter stop or the
credsMissing early return of save_to_s3 with the credential error
logged — never an uploaded artifact, but never an abort either. -/
theorem C1_missing_credentials :
    (∀ (k : Option String) (d : Except String Json) (f : Json → Option Json),
      validateKeyOk k = false →
      run_extraction k d f = .error "TMDB_API_KEY environment variable not set.") ∧
    (∀ (records : List Json) (env : Env) (put : Except String Unit)
      (out : TransformOutcome), credsOk env = false →
      run_transformation records env put = .ok out →
      (∃ logs, out = .noData logs) ∨
      (∃ enh logs, out = .credsMissing enh logs ∧
        "Error: AWS credentials or bucket name not set. Cannot upload to S3." ∈ logs)) := by
  constructor
  · intro k d f hk
    unfold run_extraction
    rw [if_neg (by simp [hk])]
  · intro records env put out hc hrun
    unfold run_transformation at hrun
    cases h1 : clean_and_filter records with
    | error e => rw [h1] at hrun; cases hrun
    | ok pair =>
      obtain ⟨rows, logs0⟩ := pair
      rw [h1] at hrun
      dsimp only at hrun
      by_cases hemp : rows.isEmpty
      · rw [if_pos hemp] at hrun
        cases hrun
        exact Or.inl ⟨_, rfl⟩
      · rw [if_neg hemp] at hrun
        cases h2 : seqE rows enhance_and_flatten with
        | error e => rw [h2] at hrun; cases hrun
        | ok enh =>
          rw [h2] at hrun
          dsimp only at hrun
          unfold save_to_s3 at hrun
          rw [if_neg (by simp [hc])] at hrun
          cases hrun
          exact Or.inr ⟨enh, _, rfl, by simp⟩

/-- C1 witness: the amended claim at concrete inputs — an absent API key
aborts the Extractor whatever the oracles do, and the missing-credential
Transformer run on one analyzable record ends in the credsMissing
outcome with the error logged. -/
theorem C1_missing_credentials_witness :
    validateKeyOk none = false ∧ credsOk envNone = false ∧
    run_extraction none (.ok (.obj [])) (fun _ => none) =
      .error "TMDB_API_KEY environment variable not set." ∧
    ((∃ logs, (TransformOutcome.credsMissing [c1Enh] c1Logs) = .noData logs) ∨
     (∃ enh logs,
        (TransformOutcome.credsMissing [c1Enh] c1Logs) = .credsMissing enh logs ∧
        "Error: AWS credentials or bucket name not set. Cannot upload to S3." ∈ logs)) := by
  refine ⟨rfl, rfl, C1_missing_credentials.1 none _ _ rfl,
    C1_missing_credentials.2 [recSimple] envNone (.ok ()) _ rfl ?_⟩
  with_unfolding_all rfl

/-- C1 counterexample: with every storage credential absent, the
Transformer run on a staged record is NOT fatal — it terminates normally
in the credsMissing outcome, carrying the row it computed after reading
and transforming the staging artifact; the claimed immediate abort
before file input does not happen. -/
theorem C1_counterexample :
    run_transformation [recSimple] envNone (.ok ()) =
      .ok (.credsMissing [c1Enh] c1Logs) ∧
    (run_transformation [recSimple] envNone (.ok ())).isOk = true := by
  constructor <;> with_unfolding_all rfl

/-- C2: every row present in the output artifact derives from a source
record whose budget and revenue are strictly positive; no other row ever
reaches the artifact. -/
theorem C2_filter_invariant {records : List Json} {env : Env}
    {put : Except String Unit} {rows : List FinalRow}
    {csv : List (List String)} {u : Bool} {logs : List String}
    (h : run_transformation records env put = .ok (.completed rows csv u logs)) :
    c2Prop records rows := by
  obtain ⟨kept, logs0, enh, hcaf, henh, hrows, hcsv, hcred⟩ := run_completed h
  subst hrows
  intro fr hfr
  obtain ⟨er, her, hfr2⟩ := List.mem_map.mp hfr
  obtain ⟨row, hrow, hen⟩ := forall2_mem_right (seqE_eq_ok.mp henh) er her
  obtain ⟨src, hsrc, hroweq, hcb, hcv⟩ := caf_mem hcaf row hrow
  have hcb2 : cmpGtZero (projCell records src "budget") = .ok true := hcb
  have hcv2 : cmpGtZero (projCell records src "revenue") = .ok true := hcv
  obtain ⟨jb, hlb, hjb⟩ := cmp_proj_true hcb2
  obtain ⟨qb, hqb, hqbpos⟩ := cmp_val_true hjb
  obtain ⟨jr, hlr, hjr⟩ := cmp_proj_true hcv2
  obtain ⟨qr, hqr, hqrpos⟩ := cmp_val_true hjr
  have hfields := enhance_fields hen
  refine ⟨src, hsrc, qb, qr, ⟨jb, hlb, hqb⟩, hqbpos, ⟨jr, hlr, hqr⟩, hqrpos, ?_, ?_⟩
  · have hb3 : er.budget = row.budget := hfields.1
    rw [hroweq] at hb3
    rw [← hfr2]
    exact hb3
  · have hr3 : er.revenue = row.revenue := hfields.2.1
    rw [hroweq] at hr3
    rw [← hfr2]
    exact hr3

/-- C2 witness: the invariant at a concrete completed run. -/
theorem C2_filter_invariant_witness :
    run_transformation [recSimple] envSome (.ok ()) =
      .ok (.completed [finalize c1Enh] (writeCsv [finalize c1Enh]) true c7Logs) ∧
    c2Prop [recSimple] [finalize c1Enh] := by
  have h : run_transformation [recSimple] envSome (.ok ()) =
      .ok (.completed [finalize c1Enh] (writeCsv [finalize c1Enh]) true c7Logs) := by
    with_unfolding_all rfl
  exact ⟨h, C2_filter_invariant h⟩

/-- C3: the ROI column of every artifact row is exactly
(revenue - budget) / budget of that row's own cells, which are positive
numbers, so the value is always defined (and may be negative). -/
theorem C3_roi_formula {records : List Json} {env : Env}
    {put : Except String Unit} {rows : List FinalRow}
    {csv : List (List String)} {u : Bool} {logs : List String}
    (h : run_transformation records env put = .ok (.completed rows csv u logs)) :
    c3Prop rows := by
  obtain ⟨kept, logs0, enh, hcaf, henh, hrows, hcsv, hcred⟩ := run_completed h
  subst hrows
  intro fr hfr
  obtain ⟨er, her, hfr2⟩ := List.mem_map.mp hfr
  obtain ⟨row, hrow, hen⟩ := forall2_mem_right (seqE_eq_ok.mp henh) er her
  obtain ⟨src, hsrc, hroweq, hcb, hcv⟩ := caf_mem hcaf row hrow
  obtain ⟨qb, hqb, hqbpos⟩ := cmp_ok_true hcb
  obtain ⟨qr, hqr, hqrpos⟩ := cmp_ok_true hcv
  have hfields := enhance_fields hen
  subst hfr2
  refine ⟨qb, qr, ?_, hqbpos, ?_, hqrpos, ?_⟩
  · have hb3 : er.budget = row.budget := hfields.1
    rw [show (finalize er).budget = er.budget from rfl, hb3, hroweq]
    exact hqb
  · have hr3 : er.revenue = row.revenue := hfields.2.1
    rw [show (finalize er).revenue = er.revenue from rfl, hr3, hroweq]
    exact hqr
  · have hroi : er.ROI = row.ROI := hfields.2.2.1
    rw [show (finalize er).ROI = er.ROI from rfl, hroi, hroweq]
    show ((cellQ (mkRow records src).revenue).getD 0 -
        (cellQ (mkRow records src).budget).getD 0) /
        (cellQ (mkRow records src).budget).getD 0 = (qr - qb) / qb
    rw [hqb, hqr]
    rfl

/-- C3 witness: the formula at a concrete completed run. -/
theorem C3_roi_formula_witness :
    run_transformation [recSimple] envSome (.ok ()) =
      .ok (.completed [finalize c1Enh] (writeCsv [finalize c1Enh]) true c7Logs) ∧
    c3Prop [finalize c1Enh] := by
  have h : run_transformation [recSimple] envSome (.ok ()) =
      .ok (.completed [finalize c1Enh] (writeCsv [finalize c1Enh]) true c7Logs) := by
    with_unfolding_all rfl
  exact ⟨h, C3_roi_formula h⟩

/-- C4: on a data-model cast cell, a non-list value yields the six null
actor columns, and a list value yields the columns of the stable
ascending sort by order of the entries that declare an order, positions
beyond the available count staying null. -/
theorem C4_actor_extraction (c : Cell) (hwf : wfCastCell c = true) :
    c4Prop c := by
  constructor
  · exact fun h => actors_nonlist h
  · intro xs hc
    subst hc
    exact actors_spec (by simpa [wfCastCell] using hwf)

/-- C4 witness: the spec's ordering example — orders 2, 0, 1 and one
entry without an order produce A, B, C in positions 1..3 and drop D. -/
theorem C4_actor_extraction_witness :
    wfCastCell exampleCast = true ∧ c4Prop exampleCast ∧
    extract_top_actors exampleCast = .ok exampleActors := by
  refine ⟨by with_unfolding_all rfl,
    C4_actor_extraction exampleCast (by with_unfolding_all rfl), ?_⟩
  with_unfolding_all rfl

/-- C5: on data-model records, after project-and-backfill every required
column exists (a column absent from every record is inserted as None for
all rows), the whole pipeline run is total, and a record missing the
genres key yields a null genres column without raising. -/
theorem C5_backfill_totality {records : List Json}
    (hwf : ∀ r ∈ records, wfRecord r = true) : c5Prop records := by
  refine ⟨?_, ?_, ?_, ?_, ?_⟩
  · intro r hr col hcol
    rw [rowGet_col records r col hcol]
    rfl
  · intro col hcol hcp r hr
    have hproj : projCell records r col = .val .null := by
      unfold projCell
      rw [if_neg (by simp [hcp])]
    rw [rowGet_col records r col hcol, hproj]
  · exact fun env put => run_ok hwf env put
  · intro r hr hg
    unfold projCell
    by_cases hp : colPresent records "genres"
    · rw [if_pos hp, hg]
      exact Or.inl rfl
    · rw [if_neg hp]
      exact Or.inr rfl
  · intro rows logs hcaf row hrow hg
    obtain ⟨src, hsrc, hroweq, _, _⟩ := caf_mem hcaf row hrow
    have hcast : wfCastCell row.cast = true := by
      rw [hroweq]
      exact projCell_wfCast (wfRecord_parts (hwf src hsrc)).2.2.2
    obtain ⟨a, ha⟩ := actors_total hcast
    refine ⟨{ id := row.id, title := row.title, budget := row.budget
              revenue := row.revenue, release_date := row.release_date
              vote_average := row.vote_average, overview := row.overview
              poster_path := row.poster_path, genres := .val .null
              cast := row.cast, ROI := row.ROI
              poster_url := posterUrl row.poster_path, actors := a }, ?_, rfl⟩
    unfold enhance_and_flatten
    rw [flattenGenres_null hg, ha]

/-- C5 witness: the property at a concrete record (which carries neither
a genres key nor most of the required columns). -/
theorem C5_backfill_totality_witness :
    (∀ r ∈ [recSimple], wfRecord r = true) ∧ c5Prop [recSimple] := by
  have hwf : ∀ r ∈ [recSimple], wfRecord r = true := by
    intro r hr
    rw [List.mem_singleton] at hr
    subst hr
    with_unfolding_all rfl
  exact ⟨hwf, C5_backfill_totality hwf⟩

/-- C6: when the filter keeps zero rows the Transformer logs the warning
and the exit line, the run stops in the noData outcome whatever the
credentials and the upload oracle, and no artifact value exists to be
written, so an existing artifact is never overwritten. -/
theorem C6_empty_short_circuit {records : List Json} {env : Env}
    {put : Except String Unit} {logs : List String}
    (h : clean_and_filter records = .ok ([], logs)) :
    run_transformation records env put =
      .ok (.noData (logs ++ ["No data to process after cleaning. Exiting."])) ∧
    "Warning: No movies left after filtering." ∈ logs :=
  ⟨run_empty h, caf_empty_warning h⟩

/-- C6 witness: the empty JSON array staging artifact. -/
theorem C6_empty_short_circuit_witness :
    clean_and_filter ([] : List Json) = .ok ([], emptyCafLogs) ∧
    run_transformation [] envSome (.ok ()) =
      .ok (.noData (emptyCafLogs ++ ["No data to process after cleaning. Exiting."])) ∧
    "Warning: No movies left after filtering." ∈ emptyCafLogs := by
  have h : clean_and_filter ([] : List Json) = .ok ([], emptyCafLogs) := by
    with_unfolding_all rfl
  have h2 := @C6_empty_short_circuit [] envSome (.ok ()) emptyCafLogs h
  exact ⟨h, h2.1, h2.2⟩

/-- C7: whatever columns the input records contain, a produced CSV opens
with the fixed sixteen-column header in the fixed order and every line
has exactly sixteen cells. -/
theorem C7_csv_columns {records : List Json} {env : Env}
    {put : Except String Unit} {rows : List FinalRow}
    {csv : List (List String)} {u : Bool} {logs : List String}
    (h : run_transformation records env put = .ok (.completed rows csv u logs)) :
    c7Prop rows csv := by
  obtain ⟨kept, logs0, enh, hcaf, henh, hrows, hcsv, hcred⟩ := run_completed h
  subst hcsv
  refine ⟨rfl, by simp [writeCsv], ?_⟩
  intro line hline
  unfold writeCsv at hline
  rcases List.mem_cons.mp hline with h1 | h2
  · subst h1
    rfl
  · obtain ⟨r, hr, h3⟩ := List.mem_map.mp h2
    subst h3
    rfl

/-- C7 witness: the header and widths at a concrete completed run. -/
theorem C7_csv_columns_witness :
    run_transformation [recSimple] envSome (.ok ()) =
      .ok (.completed [finalize c1Enh] (writeCsv [finalize c1Enh]) true c7Logs) ∧
    c7Prop [finalize c1Enh] (writeCsv [finalize c1Enh]) := by
  have h : run_transformation [recSimple] envSome (.ok ()) =
      .ok (.completed [finalize c1Enh] (writeCsv [finalize c1Enh]) true c7Logs) := by
    with_unfolding_all rfl
  exact ⟨h, C7_csv_columns h⟩

/-- C8: the failing input for the poster_url derivation.  When one
record has a poster_path and another lacks the key, pandas fills the
missing cell with float NaN; NaN is truthy, so the lambda interpolates
it instead of yielding None, and the artifact row gets poster_url
"https://image.tmdb.org/t/p/w342nan" where the claim requires null. -/
theorem C8_nan_poster_url :
    posterColumn (run_transformation [recPoster, recNoPoster] envSome (.ok ())) =
      some [.val (.str "https://image.tmdb.org/t/p/w342/abc.jpg"),
            .val (.str "https://image.tmdb.org/t/p/w342nan")] := by
  with_unfolding_all rfl

/-- C9: the Extractor accumulates the successfully fetched merged
objects in discovery order, skipping failures; an empty accumulation
skips the write and logs the warning, a non-empty one writes the single
JSON array after creating the parent directories. -/
theorem C9_extract_accumulate {k : Option String} {d : Except String Json}
    {f : Json → Option Json} {ids : List Json}
    (hk : validateKeyOk k = true)
    (hd : fetch_movie_ids d = .ok ids)
    (hf : ∀ i j, f i = some j → truthyJ j = true) :
    c9Prop k d f ids := by
  have hg : gather ids f = ids.filterMap f := gather_eq_filterMap hf ids
  refine ⟨hg, ?_, ?_⟩
  · intro hempty
    unfold run_extraction
    rw [if_pos hk, hd]
    dsimp only
    rw [hg, hempty]
    rfl
  · intro hne
    unfold run_extraction
    rw [if_pos hk, hd]
    dsimp only
    rw [hg, if_neg (by simp [List.isEmpty_iff, hne])]

/-- C9 witness: one discovered id, one truthy merged object. -/
theorem C9_extract_accumulate_witness :
    validateKeyOk (some "key123") = true ∧
    fetch_movie_ids c9Discover = .ok [.num 603] ∧
    (∀ i j, c9Fetch i = some j → truthyJ j = true) ∧
    c9Prop (some "key123") c9Discover c9Fetch [.num 603] := by
  have hf : ∀ i j, c9Fetch i = some j → truthyJ j = true := by
    intro i j hj
    rw [show c9Fetch i = some (.obj [("id", i), ("cast", .arr [])]) from rfl] at hj
    cases hj
    rfl
  exact ⟨rfl, by with_unfolding_all rfl, hf,
    C9_extract_accumulate rfl (by with_unfolding_all rfl) hf⟩

/-- C10: with the credentials set, a raising put_object is caught and
logged and save_to_s3 returns normally with the same artifact as a
successful upload; and whether a whole Transformer run terminates
normally never depends on the upload oracle, so at step exit a failed
upload is indistinguishable from a successful run. -/
theorem C10_upload_catch {env : Env} {enh : List EnhRow}
    {logs : List String} (e : String) (hc : credsOk env = true) :
    c10Prop env enh logs e := by
  refine ⟨?_, by simp, ?_,
    fun env2 records put put2 => run_isOk_put records env2 put put2⟩
  · unfold save_to_s3
    rw [if_pos hc]
  · unfold save_to_s3
    rw [if_pos hc]

/-- C10 witness: a concrete failing upload with the credentials set. -/
theorem C10_upload_catch_witness :
    credsOk envSome = true ∧ c10Prop envSome [] [] "connection reset" :=
  ⟨rfl, C10_upload_catch "connection reset" rfl⟩

end MoviesPipeline
